import Mathlib

/-
Verification of the detection-evaluation engine
(`fiftyone/utils/eval/detection.py`): the tp/fp/fn tally over match
pairs, method-registry config resolution, the evaluation orchestrator
with optional persistence, the EvalInfo record/clear lifecycle, and the
results-object construction.

The Python source is shallowly embedded: pure functions become Lean
functions; the sample collection and its persistence API become an
explicit `Collection` state threaded through the operations; exceptions
become explicit error values. The concrete matching strategy
(`evaluate_image`) is an external pluggable algorithm and is modelled as
an opaque function parameter, exactly as the engine treats it.
-/

set_option autoImplicit false

namespace DetectionEval

/-- A match label: `Option String` embeds Python's `str`-or-`None`. -/
abbrev Label := Option String

/-- A match pair `(gt_label, pred_label)`, as produced by
`evaluate_image`. Either side can be `none` (an unmatched object). -/
abbrev Match := Label × Label

/-- One iteration of the loop body of `_tally_matches`: the running
`(tp, fp, fn)` accumulator updated for one `(gt_label, pred_label)`
pair. `gt_label is None → fp += 1`, `elif pred_label is None → fn += 1`,
`else tp += 1`. -/
def _tallyStep (acc : Nat × Nat × Nat) (m : Match) : Nat × Nat × Nat :=
  match m with
  | (none, _) => (acc.1, acc.2.1 + 1, acc.2.2)
  | (some _, none) => (acc.1, acc.2.1, acc.2.2 + 1)
  | (some _, some _) => (acc.1 + 1, acc.2.1, acc.2.2)

/-- `_tally_matches(matches)`: folds the loop body over the match list
starting from `tp = fp = fn = 0` and returns `(tp, fp, fn)`. -/
def _tally_matches (ms : List Match) : Nat × Nat × Nat :=
  ms.foldl _tallyStep (0, 0, 0)

/-- Componentwise addition of two `(tp, fp, fn)` triples. -/
def addTriple (a b : Nat × Nat × Nat) : Nat × Nat × Nat :=
  (a.1 + b.1, a.2.1 + b.2.1, a.2.2 + b.2.2)

/-- The per-pair classification exactly as the spec states it: a pair
with gt absent is one false positive; gt present but pred absent is one
false negative; both present is one true positive. Stated from the
spec's words, to be compared with `_tally_matches` from the source. -/
def specClassify : Match → Nat × Nat × Nat
  | (none, _) => (0, 1, 0)
  | (some _, none) => (0, 0, 1)
  | (some _, some _) => (1, 0, 0)

lemma tallyStep_eq_addTriple (acc : Nat × Nat × Nat) (m : Match) :
    _tallyStep acc m = addTriple acc (specClassify m) := by
  rcases m with ⟨gt, pred⟩
  rcases gt with _ | g
  · simp [_tallyStep, specClassify, addTriple]
  · rcases pred with _ | p <;> simp [_tallyStep, specClassify, addTriple]

lemma foldl_tallyStep_shift (ms : List Match) (a : Nat × Nat × Nat) :
    ms.foldl _tallyStep a = addTriple a (ms.foldl _tallyStep (0, 0, 0)) := by
  induction ms generalizing a with
  | nil => simp [addTriple]
  | cons m ms ih =>
      rw [List.foldl_cons, List.foldl_cons, ih (_tallyStep a m),
        ih (_tallyStep (0, 0, 0) m), tallyStep_eq_addTriple,
        tallyStep_eq_addTriple]
      simp [addTriple]
      omega

lemma tally_matches_cons (m : Match) (ms : List Match) :
    _tally_matches (m :: ms) = addTriple (specClassify m) (_tally_matches ms) := by
  rw [_tally_matches, List.foldl_cons, foldl_tallyStep_shift,
    tallyStep_eq_addTriple]
  simp [addTriple, _tally_matches]

/-- Claim C1: the tally reduction classifies each pair independently.
The tally of `m :: ms` is the tally of `ms` plus the per-pair
contribution of `m`, where that contribution is exactly one false
positive when the gt label is absent, exactly one false negative when
the gt label is present but the pred label is absent, and exactly one
true positive when both labels are present (pairs with both sides
absent fall under the absent-gt case; the spec disallows them as
input). -/
theorem tally_classifies_pairs_independently :
    _tally_matches [] = (0, 0, 0) ∧
    (∀ (m : Match) (ms : List Match),
      _tally_matches (m :: ms) = addTriple (specClassify m) (_tally_matches ms)) ∧
    (∀ pred : Label, specClassify (none, pred) = (0, 1, 0)) ∧
    (∀ g : String, specClassify (some g, none) = (0, 0, 1)) ∧
    (∀ g p : String, specClassify (some g, some p) = (1, 0, 0)) := by
  refine ⟨rfl, tally_matches_cons, ?_, ?_, ?_⟩
  · intro pred; rfl
  · intro g; rfl
  · intro g p; rfl

/-- Claim C2: for every list of matches, the three counts returned by
`_tally_matches` sum to the length of the input list:
`tp + fp + fn = len(matches)`. -/
theorem tally_counts_sum_to_length (ms : List Match) :
    (_tally_matches ms).1 + (_tally_matches ms).2.1 + (_tally_matches ms).2.2
      = ms.length := by
  induction ms with
  | nil => rfl
  | cons m ms ih =>
      rw [tally_matches_cons]
      rcases m with ⟨gt, pred⟩
      rcases gt with _ | g
      · simp only [specClassify, addTriple, List.length_cons]
        omega
      · rcases pred with _ | p <;>
          · simp only [specClassify, addTriple, List.length_cons]
            omega

/-- The example match list from the spec's scenario:
`[("cat","cat"), ("dog", None), (None, "cat"), ("cat","dog")]`. -/
def exampleMatches : List Match :=
  [(some "cat", some "cat"), (some "dog", none),
   (none, some "cat"), (some "cat", some "dog")]

/-- Claim C3, counterexample: on the spec's example list the tally is
not `(tp=1, fp=1, fn=1)` — the pair `("cat","cat")` is also a true
positive, so `tp = 2` (and `(1, 1, 1)` would contradict
`tp + fp + fn = 4`). -/
theorem tally_example_not_one_one_one :
    _tally_matches exampleMatches ≠ (1, 1, 1) := by
  decide

/-- Claim C3, amended: for the spec's example list the tally is
`(tp=2, fp=1, fn=1)`: both `("cat","cat")` and `("cat","dog")` count as
true positives because both sides are present, `("dog", None)` is the
false negative and `(None, "cat")` the false positive. -/
theorem tally_example_value :
    _tally_matches exampleMatches = (2, 1, 1) := by
  decide

/-! ### Association-list helpers

Python attribute dictionaries, sample field dictionaries and the
EvalInfo store are embedded as association lists over `String` keys with
overwrite-on-set semantics. -/

/-- Look up the value stored under `key`, if any. -/
def assocLookup {A : Type} : List (String × A) → String → Option A
  | [], _ => none
  | kv :: rest, key => if kv.1 = key then some kv.2 else assocLookup rest key

/-- Remove every entry stored under `key`. -/
def assocErase {A : Type} : List (String × A) → String → List (String × A)
  | [], _ => []
  | kv :: rest, key =>
      if kv.1 = key then assocErase rest key
      else kv :: assocErase rest key

/-- Store `v` under `key`, silently overwriting any existing entry. -/
def assocSet {A : Type} (l : List (String × A)) (key : String) (v : A) :
    List (String × A) :=
  (key, v) :: assocErase l key

lemma assocLookup_erase_self {A : Type} (l : List (String × A)) (key : String) :
    assocLookup (assocErase l key) key = none := by
  induction l with
  | nil => rfl
  | cons kv rest ih =>
      rw [assocErase]
      by_cases hk : kv.1 = key
      · rw [if_pos hk]; exact ih
      · rw [if_neg hk, assocLookup, if_neg hk]; exact ih

lemma assocLookup_erase_ne {A : Type} (l : List (String × A)) (key k : String)
    (h : k ≠ key) : assocLookup (assocErase l key) k = assocLookup l k := by
  induction l with
  | nil => rfl
  | cons kv rest ih =>
      rw [assocErase]
      by_cases hk : kv.1 = key
      · have hkk : kv.1 ≠ k := fun hh => h (hh.symm.trans hk)
        rw [if_pos hk, assocLookup, if_neg hkk]
        exact ih
      · rw [if_neg hk, assocLookup, assocLookup]
        by_cases hkk : kv.1 = k
        · rw [if_pos hkk, if_pos hkk]
        · rw [if_neg hkk, if_neg hkk]; exact ih

lemma assocLookup_set_self {A : Type} (l : List (String × A)) (key : String)
    (v : A) : assocLookup (assocSet l key v) key = some v := by
  simp [assocSet, assocLookup]

lemma assocLookup_set_ne {A : Type} (l : List (String × A)) (key k : String)
    (v : A) (h : k ≠ key) :
    assocLookup (assocSet l key v) k = assocLookup l k := by
  have hne : ((key, v) : String × A).1 ≠ k := Ne.symm h
  rw [assocSet, assocLookup, if_neg hne]
  exact assocLookup_erase_ne l key k h

/-! ### Method registry and config resolution -/

/-- An evaluation configuration: it identifies a matching method and
holds named, overridable options. Option values are opaque to the
engine, hence the type parameter `V`. -/
structure EvaluationConfig (V : Type) where
  methodName : String
  attrs : List (String × V)
  deriving DecidableEq

/-- Python's `setattr(config, k, v)`: set attribute `k` to `v`,
whatever the name is (no schema check). -/
def setattrConfig {V : Type} (c : EvaluationConfig V) (key : String) (v : V) :
    EvaluationConfig V :=
  { c with attrs := assocSet c.attrs key v }

/-- Python's `getattr(config, k, None)`: the value of attribute `k`. -/
def getattrConfig {V : Type} (c : EvaluationConfig V) (key : String) :
    Option V :=
  assocLookup c.attrs key

/-- Modelled from the spec: `COCOEvaluationConfig` lives in the sibling
`coco` module, which is outside the source under verification; the spec
only requires a default configuration object for the built-in "coco"
method, with named overridable options. -/
def COCOEvaluationConfig (V : Type) : EvaluationConfig V :=
  { methodName := "coco", attrs := [] }

/-- `list_detection_methods()`: the available evaluation methods. -/
def list_detection_methods : List String := ["coco"]

/-- `_get_default_config(method)`: the default config for a method
name, or a `ValueError` message for an unsupported method. -/
def _get_default_config (V : Type) (method : String) :
    Except String (EvaluationConfig V) :=
  if method = "coco" then Except.ok (COCOEvaluationConfig V)
  else Except.error ("Unsupported evaluation method " ++ method)

/-- The `for k, v in kwargs.items(): setattr(config, k, v)` loop of
`_parse_config`. -/
def applyKwargs {V : Type} (c : EvaluationConfig V)
    (kwargs : List (String × V)) : EvaluationConfig V :=
  kwargs.foldl (fun c kv => setattrConfig c kv.1 kv.2) c

/-- `_parse_config(config, method, **kwargs)`: when `config` is absent,
resolve the default config of `method` (defaulting to "coco"); then
apply every keyword override via `setattr`. -/
def _parse_config {V : Type} (config : Option (EvaluationConfig V))
    (method : Option String) (kwargs : List (String × V)) :
    Except String (EvaluationConfig V) :=
  match config with
  | none =>
      match _get_default_config V (method.getD "coco") with
      | Except.error e => Except.error e
      | Except.ok c => Except.ok (applyKwargs c kwargs)
  | some c => Except.ok (applyKwargs c kwargs)

lemma applyKwargs_getattr_not_mem {V : Type} (kwargs : List (String × V))
    (c : EvaluationConfig V) (k : String)
    (h : k ∉ kwargs.map Prod.fst) :
    getattrConfig (applyKwargs c kwargs) k = getattrConfig c k := by
  induction kwargs generalizing c with
  | nil => rfl
  | cons kv rest ih =>
      simp only [List.map_cons, List.mem_cons] at h
      push_neg at h
      rw [applyKwargs, List.foldl_cons]
      rw [show List.foldl (fun c kv => setattrConfig c kv.1 kv.2)
        (setattrConfig c kv.1 kv.2) rest
          = applyKwargs (setattrConfig c kv.1 kv.2) rest from rfl]
      rw [ih _ h.2]
      exact assocLookup_set_ne _ _ _ _ h.1

lemma applyKwargs_getattr_mem {V : Type} (kwargs : List (String × V))
    (c : EvaluationConfig V) (kv : String × V)
    (hnd : (kwargs.map Prod.fst).Nodup) (hmem : kv ∈ kwargs) :
    getattrConfig (applyKwargs c kwargs) kv.1 = some kv.2 := by
  induction kwargs generalizing c with
  | nil => exact absurd hmem (List.not_mem_nil kv)
  | cons a rest ih =>
      simp only [List.map_cons, List.nodup_cons] at hnd
      rw [applyKwargs, List.foldl_cons]
      rw [show List.foldl (fun c kv => setattrConfig c kv.1 kv.2)
        (setattrConfig c a.1 a.2) rest
          = applyKwargs (setattrConfig c a.1 a.2) rest from rfl]
      rcases List.mem_cons.mp hmem with heq | hrest
      · subst heq
        rw [applyKwargs_getattr_not_mem rest _ kv.1 hnd.1]
        exact assocLookup_set_self _ _ _
      · exact ih _ hnd.2 hrest

/-- Claim C9: config resolution applies every keyword override as a
named-attribute mutation on the resolved config, regardless of whether
the name is recognized by the config's schema — `setattr` accepts any
attribute name — and the returned config carries every supplied
override value (keyword names are unique, as Python `**kwargs` keys
are). -/
theorem parse_config_applies_overrides {V : Type}
    (config : Option (EvaluationConfig V)) (method : Option String)
    (kwargs : List (String × V)) (c' : EvaluationConfig V)
    (hok : _parse_config config method kwargs = Except.ok c')
    (hnd : (kwargs.map Prod.fst).Nodup) :
    (∀ kv ∈ kwargs, getattrConfig c' kv.1 = some kv.2) ∧
    (∀ (c : EvaluationConfig V) (k : String) (v : V),
      getattrConfig (setattrConfig c k v) k = some v) := by
  refine ⟨?_, fun c k v => assocLookup_set_self _ _ _⟩
  intro kv hmem
  have hbase : ∃ base, c' = applyKwargs base kwargs := by
    rcases config with _ | c
    · rcases hdef : _get_default_config V (method.getD "coco") with e | c
      · simp only [_parse_config, hdef] at hok
        exact Except.noConfusion hok
      · simp only [_parse_config, hdef, Except.ok.injEq] at hok
        exact ⟨c, hok.symm⟩
    · simp only [_parse_config, Except.ok.injEq] at hok
      exact ⟨c, hok.symm⟩
  rcases hbase with ⟨base, rfl⟩
  exact applyKwargs_getattr_mem kwargs base kv hnd hmem

/-- Witness for C9 at a concrete input: resolving the default config
with override `("iou_thresh", 5)` yields a config carrying that
value. -/
theorem parse_config_applies_overrides_witness :
    (∀ kv ∈ [("iou_thresh", (5 : Nat))],
      getattrConfig (applyKwargs (COCOEvaluationConfig Nat)
        [("iou_thresh", 5)]) kv.1 = some kv.2) ∧
    (∀ (c : EvaluationConfig Nat) (k : String) (v : Nat),
      getattrConfig (setattrConfig c k v) k = some v) :=
  parse_config_applies_overrides none none [("iou_thresh", 5)]
    (applyKwargs (COCOEvaluationConfig Nat) [("iou_thresh", 5)]) rfl
    (by simp)

/-! ### The sample collection and the EvalInfo store

The backing sample/collection store is an external collaborator of the
engine; it is embedded as explicit state. A `Sample` carries its list
of evaluation units (the sample itself for image collections, its
ordered frames for video collections — the flattening of step 2/3 of
the orchestrator), its top-level fields, and a save counter recording
how many times `sample.save()` was called. A `Collection` carries the
samples, the EvalInfo store, and the collection-level field schemas
that `delete_sample_fields` / `delete_frame_fields` operate on. The
unit type `U` and the detection sets inside it are opaque: the engine
only ever passes them to the pluggable `evaluate_image`. -/

/-- Modelled from the spec: an EvalInfo entry `{pred_field, gt_field,
config}` keyed by an evaluation identifier; the store itself lives in
the sibling `base` module, outside the source under verification. -/
structure EvalInfo (V : Type) where
  pred_field : String
  gt_field : String
  config : EvaluationConfig V
  deriving DecidableEq

/-- One sample of the collection. -/
structure Sample (U : Type) where
  units : List U
  fields : List (String × Nat)
  saveCount : Nat
  deriving DecidableEq

/-- The collection state threaded through the engine's operations. -/
structure Collection (U V : Type) where
  samples : List (Sample U)
  evalInfos : List (String × EvalInfo V)
  sampleFields : List String
  frameFields : List String
  deriving DecidableEq

/-- Modelled from the spec: `_get_eval_info` returns the stored entry,
or fails (here: `none`) when the key was never recorded or was already
cleared. -/
def _get_eval_info {U V : Type} (c : Collection U V) (eval_key : String) :
    Option (EvalInfo V) :=
  assocLookup c.evalInfos eval_key

/-- Modelled from the spec: `_record_eval_info` stores
`{pred_field, gt_field, config}` under `eval_key`, silently overwriting
an existing entry. -/
def _record_eval_info {U V : Type} (c : Collection U V) (eval_key : String)
    (pred_field gt_field : String) (config : EvaluationConfig V) :
    Collection U V :=
  { c with evalInfos :=
      assocSet c.evalInfos eval_key ⟨pred_field, gt_field, config⟩ }

/-- Modelled from the spec: `_delete_eval_info` removes the metadata
entry only. -/
def _delete_eval_info {U V : Type} (c : Collection U V) (eval_key : String) :
    Collection U V :=
  { c with evalInfos := assocErase c.evalInfos eval_key }

/-! ### The evaluation orchestrator -/

/-- The in-sample accumulation loop of `evaluate_detections`: per image,
`tp, fp, fn = _tally_matches(image_matches)` added into the running
`sample_tp/fp/fn` totals. -/
def sampleTally {U : Type} (f : U → List Match) (s : Sample U) :
    Nat × Nat × Nat :=
  (s.units.map (fun u => _tally_matches (f u))).foldl addTriple (0, 0, 0)

/-- The matches contributed by one sample: `matches.extend(image_matches)`
for each of its images, in order. -/
def sampleMatches {U : Type} (f : U → List Match) (s : Sample U) :
    List Match :=
  (s.units.map f).flatten

/-- The body of the scan loop of `evaluate_detections` for one sample:
when `eval_key` is given, the three totals are written under
`<eval_key>_tp`, `<eval_key>_fp`, `<eval_key>_fn` and the sample is
saved; otherwise the sample is untouched. -/
def _process_sample {U : Type} (f : U → List Match) (eval_key : Option String)
    (s : Sample U) : Sample U :=
  match eval_key with
  | none => s
  | some k =>
      let t := sampleTally f s
      { s with
        fields :=
          assocSet (assocSet (assocSet s.fields (k ++ "_tp") t.1)
            (k ++ "_fp") t.2.1) (k ++ "_fn") t.2.2,
        saveCount := s.saveCount + 1 }

/-- The collection state after the scan loop of `evaluate_detections`
has processed its first `j` samples: the first `j` samples carry their
per-sample effects, the rest are untouched, and no EvalInfo has been
written. This is also the observable state of a run interrupted after
`j` samples. -/
def _scan_state {U V : Type} (f : U → List Match) (eval_key : Option String)
    (c : Collection U V) (j : Nat) : Collection U V :=
  { c with samples :=
      (c.samples.take j).map (_process_sample f eval_key)
        ++ c.samples.drop j }

/-- The errors the engine can raise, embedded as explicit values. -/
inductive EvalError where
  | configError (msg : String)
  | notFound (eval_key : String)
  | emptyMatches
  deriving DecidableEq

/-- The results object: `ClassificationResults` is constructed from the
two parallel label sequences produced by `zip(*matches)` (the
confusion-matrix machinery downstream of these sequences is outside the
claims under verification). -/
structure DetectionResults where
  ytrue : List Label
  ypred : List Label
  classes : Option (List String)
  missing : String
  deriving DecidableEq

/-- `DetectionResults.__init__`: `ytrue, ypred = zip(*matches)`. For an
empty match list `zip()` yields nothing and unpacking it into two names
raises; otherwise the two sequences are the projections of the match
list. -/
def mkDetectionResults (ms : List Match) (classes : Option (List String))
    (missing : String) : Except EvalError DetectionResults :=
  match ms with
  | [] => Except.error EvalError.emptyMatches
  | _ => Except.ok
      { ytrue := ms.map Prod.fst, ypred := ms.map Prod.snd,
        classes := classes, missing := missing }

/-- `evaluate_detections`: resolve the config (a `ValueError` there is
fatal, before any scanning); scan every sample, applying the per-sample
persistence effects when `eval_key` is given; record the EvalInfo entry
after the full scan when `eval_key` is given; build the results object
from the accumulated matches. Returns the final collection state with
the outcome. -/
def evaluate_detections {U V : Type} (f : U → List Match)
    (c : Collection U V) (pred_field gt_field : String)
    (eval_key : Option String) (classes : Option (List String))
    (missing : String) (method : Option String)
    (config : Option (EvaluationConfig V)) (kwargs : List (String × V)) :
    Collection U V × Except EvalError DetectionResults :=
  match _parse_config config method kwargs with
  | Except.error e => (c, Except.error (EvalError.configError e))
  | Except.ok cfg =>
      let scanned :=
        { c with samples := c.samples.map (_process_sample f eval_key) }
      let ms := (c.samples.map (sampleMatches f)).flatten
      let final :=
        match eval_key with
        | some k => _record_eval_info scanned k pred_field gt_field cfg
        | none => scanned
      (final, mkDetectionResults ms classes missing)

/-! ### Clearing an evaluation -/

/-- The frame-namespace prefix handling of `samples._handle_frame_field`
(external store API): when the field name starts with the `"frames."`
prefix, strip it and report a frame field. Modelled from the spec's
"adjusted for frame-namespace prefix when the prediction field is
frame-scoped". The prefix test is spelled out on the character lists so
that it evaluates inside the kernel. -/
def stripPrefixChars : List Char → List Char → Option (List Char)
  | [], rest => some rest
  | _ :: _, [] => none
  | p :: ps, ch :: cs => if p = ch then stripPrefixChars ps cs else none

/-- See `stripPrefixChars`. -/
def _handle_frame_field (field : String) : String × Bool :=
  match stripPrefixChars "frames.".data field.data with
  | some rest => (String.mk rest, true)
  | none => (field, false)

/-- `delete_sample_fields` of the external store: drops the named
fields from the sample-level schema. -/
def delete_sample_fields {U V : Type} (c : Collection U V)
    (fields : List String) : Collection U V :=
  { c with sampleFields := c.sampleFields.filter (fun fl => fl ∉ fields) }

/-- `delete_frame_fields` of the external store: drops the named fields
from the frame-level schema. -/
def delete_frame_fields {U V : Type} (c : Collection U V)
    (fields : List String) : Collection U V :=
  { c with frameFields := c.frameFields.filter (fun fl => fl ∉ fields) }

/-- The per-detection field names built by `clear_detection_evaluation`:
`<field>.detections.<eval_key>_id` and `<field>.detections.<eval_key>_iou`
for the (frame-prefix-stripped) prediction and ground-truth fields. -/
def detEvalFields {V : Type} (info : EvalInfo V) (eval_key : String) :
    List String :=
  let pf := (_handle_frame_field info.pred_field).1
  let gf := (_handle_frame_field info.gt_field).1
  [pf ++ ".detections." ++ eval_key ++ "_id",
   pf ++ ".detections." ++ eval_key ++ "_iou",
   gf ++ ".detections." ++ eval_key ++ "_id",
   gf ++ ".detections." ++ eval_key ++ "_iou"]

/-- The sample-level count field names `<eval_key>_tp`, `<eval_key>_fp`,
`<eval_key>_fn`. -/
def countFields (eval_key : String) : List String :=
  [eval_key ++ "_tp", eval_key ++ "_fp", eval_key ++ "_fn"]

/-- `clear_detection_evaluation`: look up the EvalInfo of `eval_key`
(fatal not-found error when absent, with the collection untouched);
delete the four per-detection fields from the frame schema when the
prediction field is frame-scoped, else from the sample schema; delete
the three sample-level count fields; delete the EvalInfo entry. -/
def clear_detection_evaluation {U V : Type} (c : Collection U V)
    (eval_key : String) : Collection U V × Option EvalError :=
  match _get_eval_info c eval_key with
  | none => (c, some (EvalError.notFound eval_key))
  | some info =>
      let is_frame_field := (_handle_frame_field info.pred_field).2
      let fields := detEvalFields info eval_key
      let c1 := if is_frame_field then delete_frame_fields c fields
        else delete_sample_fields c fields
      let c2 := delete_sample_fields c1 (countFields eval_key)
      (_delete_eval_info c2 eval_key, none)

lemma append_ne_of_tail_ne (s : String) {a b : String} (h : a ≠ b) :
    s ++ a ≠ s ++ b := by
  intro hh
  apply h
  have hd : s.data ++ a.data = s.data ++ b.data := by
    rw [← String.data_append, ← String.data_append, hh]
  exact String.ext (List.append_cancel_left hd)

/-- Claim C4: when no EvalInfo entry is recorded under `eval_key`
(never recorded or already cleared), `clear_detection_evaluation` fails
with a not-found error and performs no deletions at all: the returned
collection state is the input state, unchanged. -/
theorem clear_unrecorded_key_fails {U V : Type} (c : Collection U V)
    (k : String) (h : _get_eval_info c k = none) :
    clear_detection_evaluation c k = (c, some (EvalError.notFound k)) := by
  simp only [clear_detection_evaluation, h]

/-- Witness for C4: clearing the key "ek" on a collection with an empty
EvalInfo store fails with the not-found error and leaves the collection
unchanged. -/
theorem clear_unrecorded_key_fails_witness :
    clear_detection_evaluation (U := Unit) (V := Nat) ⟨[], [], [], []⟩ "ek"
      = (⟨[], [], [], []⟩, some (EvalError.notFound "ek")) :=
  clear_unrecorded_key_fails ⟨[], [], [], []⟩ "ek" rfl

/-- Claim C8: with `config` absent and a method name outside
`list_detection_methods` (which always contains the default method
"coco"), config resolution fails with a configuration error and
`evaluate_detections` returns that error with the collection completely
untouched — no item scanned, no persistence write; moreover resolution
accepts exactly the default method: a method name has a default config
iff it is in `list_detection_methods`. -/
theorem unknown_method_rejected_before_scan {U V : Type}
    (f : U → List Match) (c : Collection U V) (pred_field gt_field : String)
    (eval_key : Option String) (classes : Option (List String))
    (missing : String) (kwargs : List (String × V)) (m : String)
    (hm : m ≠ "coco") :
    "coco" ∈ list_detection_methods ∧
    m ∉ list_detection_methods ∧
    (∀ m' : String, m' ∈ list_detection_methods ↔
      ∃ cfg, _get_default_config V m' = Except.ok cfg) ∧
    evaluate_detections f c pred_field gt_field eval_key classes missing
        (some m) none kwargs
      = (c, Except.error (EvalError.configError
          ("Unsupported evaluation method " ++ m))) := by
  refine ⟨by simp [list_detection_methods], by simp [list_detection_methods, hm],
    ?_, ?_⟩
  · intro m'
    constructor
    · intro hm'
      simp only [list_detection_methods, List.mem_singleton] at hm'
      exact ⟨COCOEvaluationConfig V, by simp [_get_default_config, hm']⟩
    · rintro ⟨cfg, hcfg⟩
      by_cases hc : m' = "coco"
      · simp [list_detection_methods, hc]
      · simp [_get_default_config, hc] at hcfg
  · simp only [evaluate_detections, _parse_config, Option.getD_some,
      _get_default_config, if_neg hm]

/-- Witness for C8 at the concrete unknown method name "fake". -/
theorem unknown_method_rejected_before_scan_witness :
    "coco" ∈ list_detection_methods ∧
    "fake" ∉ list_detection_methods ∧
    (∀ m' : String, m' ∈ list_detection_methods ↔
      ∃ cfg, _get_default_config Nat m' = Except.ok cfg) ∧
    evaluate_detections (U := List Match) (V := Nat) id ⟨[], [], [], []⟩
        "pf" "gf" none none "none" (some "fake") none []
      = (⟨[], [], [], []⟩, Except.error (EvalError.configError
          ("Unsupported evaluation method " ++ "fake"))) :=
  unknown_method_rejected_before_scan id ⟨[], [], [], []⟩ "pf" "gf" none
    none "none" [] "fake" (by decide)

/-- Claim C10: for the empty match list, constructing the results
object fails (unpacking `zip(*matches)` raises) rather than producing
an empty results structure; consequently a run of `evaluate_detections`
whose scan yields zero matches — for example over an empty
collection — ends in an error instead of a results object. -/
theorem empty_matches_results_error {U V : Type} (f : U → List Match)
    (c : Collection U V) (pred_field gt_field : String)
    (eval_key : Option String) (classes : Option (List String))
    (missing : String) (method : Option String)
    (config : Option (EvaluationConfig V)) (kwargs : List (String × V))
    (cfg : EvaluationConfig V)
    (hok : _parse_config config method kwargs = Except.ok cfg)
    (hzero : (c.samples.map (sampleMatches f)).flatten = []) :
    mkDetectionResults [] classes missing
        = Except.error EvalError.emptyMatches ∧
    (evaluate_detections f c pred_field gt_field eval_key classes missing
        method config kwargs).2 = Except.error EvalError.emptyMatches := by
  constructor
  · rfl
  · simp only [evaluate_detections, hok, hzero, mkDetectionResults]

/-- Witness for C10: evaluating an empty collection (zero matches)
fails with the empty-matches error. -/
theorem empty_matches_results_error_witness :
    mkDetectionResults [] none "none"
        = Except.error EvalError.emptyMatches ∧
    (evaluate_detections (U := List Match) (V := Nat) id ⟨[], [], [], []⟩
        "pf" "gf" none none "none" none none []).2
      = Except.error EvalError.emptyMatches :=
  empty_matches_results_error id ⟨[], [], [], []⟩ "pf" "gf" none none
    "none" none none [] (COCOEvaluationConfig Nat) rfl rfl

lemma process_sample_none_id {U : Type} (f : U → List Match) :
    _process_sample f (none : Option String) = id :=
  funext fun _ => rfl

lemma process_sample_fields {U : Type} (f : U → List Match) (k : String)
    (s : Sample U) :
    assocLookup (_process_sample f (some k) s).fields (k ++ "_tp")
        = some (sampleTally f s).1 ∧
    assocLookup (_process_sample f (some k) s).fields (k ++ "_fp")
        = some (sampleTally f s).2.1 ∧
    assocLookup (_process_sample f (some k) s).fields (k ++ "_fn")
        = some (sampleTally f s).2.2 := by
  have htpfn : k ++ "_tp" ≠ k ++ "_fn" := append_ne_of_tail_ne k (by decide)
  have htpfp : k ++ "_tp" ≠ k ++ "_fp" := append_ne_of_tail_ne k (by decide)
  have hfpfn : k ++ "_fp" ≠ k ++ "_fn" := append_ne_of_tail_ne k (by decide)
  refine ⟨?_, ?_, ?_⟩
  · rw [_process_sample]
    rw [assocLookup_set_ne _ _ _ _ htpfn, assocLookup_set_ne _ _ _ _ htpfp]
    exact assocLookup_set_self _ _ _
  · rw [_process_sample]
    rw [assocLookup_set_ne _ _ _ _ hfpfn]
    exact assocLookup_set_self _ _ _
  · rw [_process_sample]
    exact assocLookup_set_self _ _ _

/-- Claim C6: a run of `evaluate_detections` with `eval_key` absent
performs no persistence at all — the returned collection state is the
input state: no sample-level fields written, no sample saved, no
EvalInfo entry recorded — while a run with `eval_key = k` maps every
sample through the per-sample persistence step, which stores the three
per-item totals under `<k>_tp`, `<k>_fp`, `<k>_fn`, leaves every other
sample field unchanged, and saves the sample (its save counter is
incremented). -/
theorem evaluate_persistence_iff_eval_key {U V : Type} (f : U → List Match)
    (c : Collection U V) (pred_field gt_field : String)
    (classes : Option (List String)) (missing : String)
    (method : Option String) (config : Option (EvaluationConfig V))
    (kwargs : List (String × V)) (cfg : EvaluationConfig V)
    (hok : _parse_config config method kwargs = Except.ok cfg) :
    (evaluate_detections f c pred_field gt_field none classes missing
        method config kwargs).1 = c ∧
    (∀ k : String,
      (evaluate_detections f c pred_field gt_field (some k) classes missing
          method config kwargs).1.samples
        = c.samples.map (_process_sample f (some k))) ∧
    (∀ (k : String) (s : Sample U),
      assocLookup (_process_sample f (some k) s).fields (k ++ "_tp")
          = some (sampleTally f s).1 ∧
      assocLookup (_process_sample f (some k) s).fields (k ++ "_fp")
          = some (sampleTally f s).2.1 ∧
      assocLookup (_process_sample f (some k) s).fields (k ++ "_fn")
          = some (sampleTally f s).2.2 ∧
      (∀ fl : String, fl ∉ countFields k →
        assocLookup (_process_sample f (some k) s).fields fl
          = assocLookup s.fields fl) ∧
      (_process_sample f (some k) s).saveCount = s.saveCount + 1 ∧
      (_process_sample f (some k) s).units = s.units) := by
  refine ⟨?_, ?_, ?_⟩
  · simp only [evaluate_detections, hok, process_sample_none_id, List.map_id]
  · intro k
    simp only [evaluate_detections, hok, _record_eval_info]
  · intro k s
    obtain ⟨h1, h2, h3⟩ := process_sample_fields f k s
    refine ⟨h1, h2, h3, ?_, rfl, rfl⟩
    intro fl hfl
    simp only [countFields, List.mem_cons, List.not_mem_nil, or_false,
      not_or] at hfl
    rw [_process_sample]
    rw [assocLookup_set_ne _ _ _ _ hfl.2.2, assocLookup_set_ne _ _ _ _ hfl.2.1,
      assocLookup_set_ne _ _ _ _ hfl.1]

/-- Witness for C6 at a concrete one-sample collection, with the
identity matching strategy over literal match lists. -/
theorem evaluate_persistence_iff_eval_key_witness :
    (evaluate_detections (U := List Match) (V := Nat) id
        ⟨[⟨[[(some "cat", some "cat"), (some "dog", none)]], [], 0⟩],
          [], [], []⟩ "pf" "gf" none none "none" none none []).1
      = ⟨[⟨[[(some "cat", some "cat"), (some "dog", none)]], [], 0⟩],
          [], [], []⟩ ∧
    (∀ k : String,
      (evaluate_detections (U := List Match) (V := Nat) id
          ⟨[⟨[[(some "cat", some "cat"), (some "dog", none)]], [], 0⟩],
            [], [], []⟩ "pf" "gf" (some k) none "none" none none
          []).1.samples
        = (⟨[⟨[[(some "cat", some "cat"), (some "dog", none)]], [], 0⟩],
            [], [], []⟩ : Collection (List Match) Nat).samples.map
            (_process_sample id (some k))) ∧
    (∀ (k : String) (s : Sample (List Match)),
      assocLookup (_process_sample id (some k) s).fields (k ++ "_tp")
          = some (sampleTally id s).1 ∧
      assocLookup (_process_sample id (some k) s).fields (k ++ "_fp")
          = some (sampleTally id s).2.1 ∧
      assocLookup (_process_sample id (some k) s).fields (k ++ "_fn")
          = some (sampleTally id s).2.2 ∧
      (∀ fl : String, fl ∉ countFields k →
        assocLookup (_process_sample id (some k) s).fields fl
          = assocLookup s.fields fl) ∧
      (_process_sample id (some k) s).saveCount = s.saveCount + 1 ∧
      (_process_sample id (some k) s).units = s.units) :=
  evaluate_persistence_iff_eval_key id
    ⟨[⟨[[(some "cat", some "cat"), (some "dog", none)]], [], 0⟩],
      [], [], []⟩ "pf" "gf" none "none" none none []
    (COCOEvaluationConfig Nat) rfl

/-- Claim C7: during a named run under a fresh `eval_key`, the EvalInfo
entry does not exist at any intermediate step of the scan — after any
number `j` of processed (and saved) samples, including the state an
interrupted run leaves behind — and the final state of
`evaluate_detections` is exactly the full-scan state with the EvalInfo
entry recorded once, after the last sample. -/
theorem eval_info_recorded_only_after_scan {U V : Type}
    (f : U → List Match) (c : Collection U V)
    (pred_field gt_field k : String) (classes : Option (List String))
    (missing : String) (method : Option String)
    (config : Option (EvaluationConfig V)) (kwargs : List (String × V))
    (cfg : EvaluationConfig V)
    (hfresh : _get_eval_info c k = none)
    (hok : _parse_config config method kwargs = Except.ok cfg) :
    (∀ j : Nat, _get_eval_info (_scan_state f (some k) c j) k = none) ∧
    (evaluate_detections f c pred_field gt_field (some k) classes missing
        method config kwargs).1
      = _record_eval_info (_scan_state f (some k) c c.samples.length)
          k pred_field gt_field cfg := by
  constructor
  · intro j
    exact hfresh
  · simp only [evaluate_detections, hok, _scan_state, List.take_length,
      List.drop_length, List.append_nil]

/-- Witness for C7 at a concrete one-sample collection with a fresh
key "ek". -/
theorem eval_info_recorded_only_after_scan_witness :
    (∀ j : Nat,
      _get_eval_info (_scan_state (U := List Match) (V := Nat) id
        (some "ek")
        ⟨[⟨[[(some "cat", none)]], [], 0⟩], [], [], []⟩ j) "ek" = none) ∧
    (evaluate_detections (U := List Match) (V := Nat) id
        ⟨[⟨[[(some "cat", none)]], [], 0⟩], [], [], []⟩ "pf" "gf"
        (some "ek") none "none" none none []).1
      = _record_eval_info
          (_scan_state (U := List Match) (V := Nat) id (some "ek")
            ⟨[⟨[[(some "cat", none)]], [], 0⟩], [], [], []⟩
            (⟨[⟨[[(some "cat", none)]], [], 0⟩], [], [], []⟩ :
              Collection (List Match) Nat).samples.length)
          "ek" "pf" "gf" (COCOEvaluationConfig Nat) :=
  eval_info_recorded_only_after_scan id
    ⟨[⟨[[(some "cat", none)]], [], 0⟩], [], [], []⟩ "pf" "gf" "ek" none
    "none" none none [] (COCOEvaluationConfig Nat) rfl rfl

lemma mem_filter_not_mem (l fields : List String) (fl : String) :
    fl ∈ l.filter (fun x => x ∉ fields) ↔ fl ∈ l ∧ fl ∉ fields := by
  simp [List.mem_filter]

lemma clear_eq_of_get {U V : Type} (c : Collection U V) (k : String)
    (info : EvalInfo V) (h : _get_eval_info c k = some info) :
    clear_detection_evaluation c k =
      ({ samples := c.samples,
         evalInfos := assocErase c.evalInfos k,
         sampleFields :=
           (if (_handle_frame_field info.pred_field).2 then c.sampleFields
            else c.sampleFields.filter
              (fun fl => fl ∉ detEvalFields info k)).filter
             (fun fl => fl ∉ countFields k),
         frameFields :=
           if (_handle_frame_field info.pred_field).2 then
             c.frameFields.filter (fun fl => fl ∉ detEvalFields info k)
           else c.frameFields }, none) := by
  have h' : assocLookup c.evalInfos k = some info := h
  simp only [clear_detection_evaluation, _get_eval_info, h',
    delete_frame_fields, delete_sample_fields, _delete_eval_info]
  cases hx : (_handle_frame_field info.pred_field).2
  · simp [hx]
  · simp [hx]

/-- Claim C5: when an evaluation is recorded under `eval_key`,
`clear_detection_evaluation` succeeds and removes exactly the fields
that evaluation added — the four per-detection
`<field>.detections.<eval_key>_id` / `<eval_key>_iou` names for the
prediction and ground-truth fields, taken from the frame schema when
the prediction field is frame-scoped and from the sample schema
otherwise, and the three sample-level `<eval_key>_tp/_fp/_fn` names —
then deletes the EvalInfo entry, leaving every sample, every other
schema field and every other EvalInfo entry unchanged. -/
theorem clear_removes_exactly_recorded {U V : Type} (c : Collection U V)
    (k : String) (info : EvalInfo V)
    (h : _get_eval_info c k = some info) :
    (clear_detection_evaluation c k).2 = none ∧
    (clear_detection_evaluation c k).1.samples = c.samples ∧
    (if (_handle_frame_field info.pred_field).2 then
      (∀ fl : String, fl ∈ (clear_detection_evaluation c k).1.frameFields ↔
        fl ∈ c.frameFields ∧ fl ∉ detEvalFields info k) ∧
      (∀ fl : String, fl ∈ (clear_detection_evaluation c k).1.sampleFields ↔
        fl ∈ c.sampleFields ∧ fl ∉ countFields k)
    else
      (clear_detection_evaluation c k).1.frameFields = c.frameFields ∧
      (∀ fl : String, fl ∈ (clear_detection_evaluation c k).1.sampleFields ↔
        fl ∈ c.sampleFields ∧ fl ∉ detEvalFields info k ∧
          fl ∉ countFields k)) ∧
    _get_eval_info (clear_detection_evaluation c k).1 k = none ∧
    (∀ k' : String, k' ≠ k →
      _get_eval_info (clear_detection_evaluation c k).1 k'
        = _get_eval_info c k') := by
  rw [clear_eq_of_get c k info h]
  refine ⟨rfl, rfl, ?_, assocLookup_erase_self c.evalInfos k,
    fun k' hk' => assocLookup_erase_ne c.evalInfos k k' hk'⟩
  cases hx : (_handle_frame_field info.pred_field).2
  · simp only [hx, Bool.false_eq_true, if_false]
    refine ⟨trivial, fun fl => ?_⟩
    rw [mem_filter_not_mem, mem_filter_not_mem, and_assoc]
  · simp only [hx, if_true]
    exact ⟨fun fl => mem_filter_not_mem c.frameFields (detEvalFields info k) fl,
      fun fl => mem_filter_not_mem c.sampleFields (countFields k) fl⟩

/-- A concrete collection with an evaluation recorded under "ek" on
fields "preds" / "gt": the derived detection-level and count fields are
in the sample schema next to an unrelated field. -/
def clearWitnessCollection : Collection Unit Nat :=
  { samples := [],
    evalInfos := [("ek", ⟨"preds", "gt", COCOEvaluationConfig Nat⟩),
      ("other_key", ⟨"p2", "g2", COCOEvaluationConfig Nat⟩)],
    sampleFields := ["preds.detections.ek_id", "preds.detections.ek_iou",
      "gt.detections.ek_id", "gt.detections.ek_iou", "ek_tp", "ek_fp",
      "ek_fn", "unrelated_field"],
    frameFields := [] }

/-- Witness for C5 at `clearWitnessCollection` and key "ek". -/
theorem clear_removes_exactly_recorded_witness :
    (clear_detection_evaluation clearWitnessCollection "ek").2 = none ∧
    (clear_detection_evaluation clearWitnessCollection "ek").1.samples
      = clearWitnessCollection.samples ∧
    (if (_handle_frame_field
        (EvalInfo.pred_field (V := Nat)
          ⟨"preds", "gt", COCOEvaluationConfig Nat⟩)).2 then
      (∀ fl : String,
        fl ∈ (clear_detection_evaluation clearWitnessCollection
            "ek").1.frameFields ↔
        fl ∈ clearWitnessCollection.frameFields ∧
          fl ∉ detEvalFields ⟨"preds", "gt", COCOEvaluationConfig Nat⟩ "ek") ∧
      (∀ fl : String,
        fl ∈ (clear_detection_evaluation clearWitnessCollection
            "ek").1.sampleFields ↔
        fl ∈ clearWitnessCollection.sampleFields ∧ fl ∉ countFields "ek")
    else
      (clear_detection_evaluation clearWitnessCollection "ek").1.frameFields
        = clearWitnessCollection.frameFields ∧
      (∀ fl : String,
        fl ∈ (clear_detection_evaluation clearWitnessCollection
            "ek").1.sampleFields ↔
        fl ∈ clearWitnessCollection.sampleFields ∧
          fl ∉ detEvalFields ⟨"preds", "gt", COCOEvaluationConfig Nat⟩ "ek" ∧
          fl ∉ countFields "ek")) ∧
    _get_eval_info (clear_detection_evaluation clearWitnessCollection
        "ek").1 "ek" = none ∧
    (∀ k' : String, k' ≠ "ek" →
      _get_eval_info (clear_detection_evaluation clearWitnessCollection
          "ek").1 k'
        = _get_eval_info clearWitnessCollection k') :=
  clear_removes_exactly_recorded clearWitnessCollection "ek"
    ⟨"preds", "gt", COCOEvaluationConfig Nat⟩ (by decide)

end DetectionEval
